import Mathlib

/-!
Verification development for the go-gormrepo repository: a shallow embedding
of its reflection-driven entity-to-DTO projection engine, naming resolver,
type classifier, primary-key resolver and fluent repository state, together
with theorems settling the specification claims.

The embedding models Go's runtime values and types as inductive data:
a `GoType` mirrors `reflect.Type` (restricted to the kinds the library
distinguishes: string, bool, the integer kinds, the float kinds, struct,
pointer, slice; the several Go integer widths are collapsed to two
representative kinds `tInt`/`tInt64` and the float widths to `tFloat64`,
which preserves the library's classification and convertibility behavior,
since every Go numeric kind is classified "basic" and all numeric kinds are
mutually convertible), and a `GoVal` mirrors `reflect.Value`.  Struct tags
carry the four tag keys the library reads: `projection`, `gorm`, `json`,
`preload`.  Nil pointers and nil slices are distinct constructors, since the
code's behavior distinguishes nil from empty slices.  Promotion of fields of
anonymous embedded structs by `reflect.Value.FieldByName` is not modelled
(none of the mapping claims involve embedded entities; the primary-key
helper's own explicit recursion into anonymous fields is modelled directly).
-/

namespace GormRepo

/-- The struct-tag metadata of one field: the four tag keys read by the
library (`projection`, `gorm`, `json`, `preload`); absent tags are `""`,
matching `reflect.StructTag.Get`. -/
structure GoTag where
  projection : String := ""
  gorm : String := ""
  json : String := ""
  preload : String := ""
deriving DecidableEq, Repr

/-- The non-type metadata of a struct field: name, exportedness
(`IsExported` / `CanSet`), anonymity (embedded field) and tags. -/
structure GoFieldMeta where
  name : String
  exported : Bool := true
  anonymous : Bool := false
  tag : GoTag := {}
deriving DecidableEq, Repr

mutual
/-- Embedding of `reflect.Type`, restricted to the kinds the library
distinguishes. -/
inductive GoType : Type where
  | tString
  | tBool
  | tInt
  | tInt64
  | tFloat64
  | tStruct (fields : GoFields)
  | tPtr (elem : GoType)
  | tSlice (elem : GoType)
deriving DecidableEq, Repr

/-- The field list of a struct type, in declaration order. -/
inductive GoFields : Type where
  | nil
  | cons (m : GoFieldMeta) (ty : GoType) (rest : GoFields)
deriving DecidableEq, Repr
end

mutual
/-- Embedding of `reflect.Value`.  Floats carry a rational payload (no claim
computes with float values).  `vPtrNil` / `vSliceNil` are the zero values of
pointer and slice types; `vSlice` is a non-nil (possibly empty) slice. -/
inductive GoVal : Type where
  | vString (s : String)
  | vBool (b : Bool)
  | vInt (n : Int)
  | vFloat (q : Rat)
  | vStruct (fields : GoVals)
  | vPtrNil
  | vPtr (v : GoVal)
  | vSliceNil
  | vSlice (elems : GoVals)
deriving DecidableEq, Repr

/-- A list of field values (or slice elements), in order. -/
inductive GoVals : Type where
  | nil
  | cons (v : GoVal) (vs : GoVals)
deriving DecidableEq, Repr
end

/-- Length of a `GoVals` list. -/
def GoVals.length : GoVals → Nat
  | .nil => 0
  | .cons _ vs => 1 + vs.length

/-- Indexing into a `GoVals` list. -/
def GoVals.get? : GoVals → Nat → Option GoVal
  | .nil, _ => none
  | .cons v _, 0 => some v
  | .cons _ vs, n + 1 => vs.get? n

/-- Conversion to an ordinary list. -/
def GoVals.toList : GoVals → List GoVal
  | .nil => []
  | .cons v vs => v :: vs.toList

/-- Conversion from an ordinary list. -/
def GoVals.ofList : List GoVal → GoVals
  | [] => .nil
  | v :: vs => .cons v (GoVals.ofList vs)

/-- The field list as an ordinary list of (metadata, type) pairs. -/
def GoFields.toList : GoFields → List (GoFieldMeta × GoType)
  | .nil => []
  | .cons m t rest => (m, t) :: rest.toList

/-- Number of fields. -/
def GoFields.length : GoFields → Nat
  | .nil => 0
  | .cons _ _ rest => 1 + rest.length

/-! ### String helpers (models of the Go `strings` functions used) -/

/-- Model of `strings.Split` with a one-character separator: splits a
character list on every occurrence of `sep`; the result is never empty
(`strings.Split("", sep)` is `[""]`). -/
def splitOnChar (sep : Char) : List Char → List (List Char)
  | [] => [[]]
  | c :: cs =>
    let r := splitOnChar sep cs
    if c = sep then [] :: r
    else
      match r with
      | [] => [[c]]
      | g :: gs => (c :: g) :: gs

/-- Scan the `;`-separated parts of a `gorm` tag for the first part starting
with `column:` and return the remainder of that part — the loop body shared
verbatim by `getColumnName` and `getColumnNameFromDTO` in the source
(`strings.HasPrefix(part, "column:")` / `strings.TrimPrefix`). -/
def columnOfParts : List (List Char) → Option String
  | [] => none
  | p :: ps =>
    if "column:".toList.isPrefixOf p then some (String.mk (p.drop 7))
    else columnOfParts ps

/-- The `column:` clause of a `gorm` tag, if any. -/
def gormColumnClause (tag : String) : Option String :=
  columnOfParts (splitOnChar ';' tag.toList)

/-- Whether `pat` occurs as a contiguous run inside `cs`. -/
def containsAt (pat : List Char) : List Char → Bool
  | [] => pat.isPrefixOf []
  | c :: cs => pat.isPrefixOf (c :: cs) || containsAt pat cs

/-- Model of `strings.Contains` (used for the `primaryKey` marker). -/
def strContains (s pat : String) : Bool :=
  containsAt pat.toList s.toList

/-- Model of `strings.EqualFold`, restricted to ASCII case folding (all
names involved are ASCII). -/
def strEqualFold (s t : String) : Bool :=
  s.toList.map Char.toLower == t.toList.map Char.toLower

/-- The character loop of `toSnakeCase`: before every uppercase ASCII letter
that is not at index 0 an underscore is inserted (`isFirst` tracks whether we
are at index 0, matching the source's `i > 0` test). -/
def snakeChars : Bool → List Char → List Char
  | _, [] => []
  | isFirst, c :: cs =>
    (if isFirst = false ∧ 'A' ≤ c ∧ c ≤ 'Z' then ['_', c] else [c]) ++ snakeChars false cs

/-- `toSnakeCase` from the source: insert `_` before each interior uppercase
letter, then lower-case the whole string (`strings.ToLower`, ASCII here). -/
def toSnakeCase (s : String) : String :=
  String.mk ((snakeChars true s.toList).map Char.toLower)

/-- `getColumnName` from the source: the entity-side column resolver — the
`column:` clause of the `gorm` tag if the tag is non-empty and has one, else
the snake-cased field name.  It reads neither the `projection` nor the
`json` tag. -/
def getColumnName (m : GoFieldMeta) : String :=
  if m.tag.gorm ≠ "" then
    match gormColumnClause m.tag.gorm with
    | some c => c
    | none => toSnakeCase m.name
  else toSnakeCase m.name

/-- `getColumnNameFromDTO` from the source: the DTO-side column resolver —
priority: non-empty `projection` tag, then `column:` clause of the `gorm`
tag, then the first comma-delimited segment of a `json` tag that is non-empty
and not `"-"`, then the snake-cased field name. -/
def getColumnNameFromDTO (m : GoFieldMeta) : String :=
  if m.tag.projection ≠ "" then m.tag.projection
  else
    match (if m.tag.gorm ≠ "" then gormColumnClause m.tag.gorm else none) with
    | some c => c
    | none =>
      if m.tag.json ≠ "" ∧ m.tag.json ≠ "-" then
        match splitOnChar ',' m.tag.json.toList with
        | [] => ""
        | g :: _ => String.mk g
      else toSnakeCase m.name

/-! ### Type classifier and projection shape -/

/-- `isBasicType` from the source: true exactly for the string, integer,
unsigned-integer, float and bool kinds; struct, pointer and slice kinds are
composite. -/
def isBasicType : GoType → Bool
  | .tString => true
  | .tBool => true
  | .tInt => true
  | .tInt64 => true
  | .tFloat64 => true
  | _ => false

/-- One level of pointer dereference on a type (`if Kind() == Ptr { t =
t.Elem() }`). -/
def derefPtrType : GoType → GoType
  | .tPtr t => t
  | t => t

/-- Whether a type is of struct kind. -/
def isStructKind : GoType → Bool
  | .tStruct _ => true
  | _ => false

/-- The fields of the DTO type after a top-level pointer dereference
(`if dtoType.Kind() == Ptr { dtoType = dtoType.Elem() }` followed by
`NumField`/`Field`; `NumField` panics on non-structs in Go — unreachable in
the library and modelled as no fields).  Shared by the three shape
functions, each of which performs exactly this preamble. -/
def structFields (t : GoType) : GoFields :=
  match derefPtrType t with
  | .tStruct fs => fs
  | _ => .nil

/-- `hasStructFields` from the source: the DTO type (after a top-level
pointer dereference) has some field whose pointer-dereferenced type is a
struct that is not basic.  All fields are inspected, exported or not. -/
def hasStructFields (dtoT : GoType) : Bool :=
  go (structFields dtoT)
where
  go : GoFields → Bool
    | .nil => false
    | .cons _ t rest =>
      let ft := derefPtrType t
      if isStructKind ft ∧ ¬isBasicType ft then true else go rest

/-- `extractPreloadsFromDTO` from the source: one preload per field whose
pointer-dereferenced type is a non-basic struct, named by the `preload` tag
if non-empty, else by the field name verbatim.  Exportedness is not
checked. -/
def extractPreloadsFromDTO (dtoT : GoType) : List String :=
  go (structFields dtoT)
where
  go : GoFields → List String
    | .nil => []
    | .cons m t rest =>
      let ft := derefPtrType t
      if isStructKind ft ∧ ¬isBasicType ft then
        (if m.tag.preload = "" then m.name else m.tag.preload) :: go rest
      else go rest

/-- `createProjectionFromDTO` from the source: the resolved column names of
the exported fields whose declared type is basic, in declaration order.
Note: the declared field type is classified directly, with no pointer
dereference. -/
def createProjectionFromDTO (dtoT : GoType) : List String :=
  go (structFields dtoT)
where
  go : GoFields → List String
    | .nil => []
    | .cons m t rest =>
      if m.exported then
        if isBasicType t then getColumnNameFromDTO m :: go rest else go rest
      else go rest

/-! ### Convertibility and conversion (model of `reflect.Type.ConvertibleTo`
and `reflect.Value.Convert`, restricted to the modelled kinds).  Within this
universe Go's rules are: identical types ignoring struct tags are
convertible (struct tags are ignored for convertibility since Go 1.8);
any two numeric kinds are inter-convertible; integer kinds convert to
string (rune conversion); nothing else is. -/

mutual
/-- Go type identity ignoring struct tags. -/
def identNoTags : GoType → GoType → Bool
  | .tString, .tString => true
  | .tBool, .tBool => true
  | .tInt, .tInt => true
  | .tInt64, .tInt64 => true
  | .tFloat64, .tFloat64 => true
  | .tStruct fs, .tStruct gs => identFieldsNoTags fs gs
  | .tPtr a, .tPtr b => identNoTags a b
  | .tSlice a, .tSlice b => identNoTags a b
  | _, _ => false

/-- Field-list identity ignoring tags: same names, exportedness, anonymity
and types, in order. -/
def identFieldsNoTags : GoFields → GoFields → Bool
  | .nil, .nil => true
  | .cons m t rest, .cons m' t' rest' =>
    m.name = m'.name ∧ m.exported = m'.exported ∧ m.anonymous = m'.anonymous
      ∧ identNoTags t t' ∧ identFieldsNoTags rest rest'
  | _, _ => false
end

/-- Whether a kind is numeric (integer or float). -/
def isNumericKind : GoType → Bool
  | .tInt => true
  | .tInt64 => true
  | .tFloat64 => true
  | _ => false

/-- Whether a kind is an integer kind. -/
def isIntKind : GoType → Bool
  | .tInt => true
  | .tInt64 => true
  | _ => false

/-- Model of `reflect.Type.ConvertibleTo`. -/
def convertibleTo (a b : GoType) : Bool :=
  identNoTags a b ∨ (isNumericKind a ∧ isNumericKind b)
    ∨ (isIntKind a ∧ b = .tString)

/-- Truncation of a rational toward zero (Go float-to-int conversion). -/
def ratTruncToInt (q : Rat) : Int :=
  q.num.tdiv (q.den : Int)

/-- Model of `reflect.Value.Convert` on convertible types: identical types
(ignoring tags) keep the value; numeric conversions reinterpret the payload;
integer-to-string is Go's rune conversion.  On non-convertible types (never
reached: the caller checks `convertibleTo`) the value is returned
unchanged. -/
def convert (srcT : GoType) (v : GoVal) (dstT : GoType) : GoVal :=
  if identNoTags srcT dstT then v
  else
    match v, dstT with
    | .vInt n, .tInt => .vInt n
    | .vInt n, .tInt64 => .vInt n
    | .vInt n, .tFloat64 => .vFloat (n : Rat)
    | .vFloat q, .tFloat64 => .vFloat q
    | .vFloat q, .tInt => .vInt (ratTruncToInt q)
    | .vFloat q, .tInt64 => .vInt (ratTruncToInt q)
    | .vInt n, .tString => .vString (String.mk [Char.ofNat n.toNat])
    | w, _ => w

mutual
/-- The zero value of a type (`reflect.New(t).Elem()` / `MakeSlice`
element initialization).  Pointer and slice zero values are nil. -/
def zeroVal : GoType → GoVal
  | .tString => .vString ""
  | .tBool => .vBool false
  | .tInt => .vInt 0
  | .tInt64 => .vInt 0
  | .tFloat64 => .vFloat 0
  | .tStruct fs => .vStruct (zeroFields fs)
  | .tPtr _ => .vPtrNil
  | .tSlice _ => .vSliceNil

/-- Zero values of a field list. -/
def zeroFields : GoFields → GoVals
  | .nil => .nil
  | .cons _ t rest => .cons (zeroVal t) (zeroFields rest)
end

/-! ### Source-field lookup inside the mapping loops -/

/-- Model of `entityValue.FieldByName(name)` restricted to declared
(non-promoted) fields: the first field, in declaration order, whose name is
exactly `name`, together with its value.  `none` models an invalid
`reflect.Value`. -/
def findFieldByName : GoFields → GoVals → String → Option (GoType × GoVal)
  | .cons m t rest, .cons v vs, n =>
    if m.name = n then some (t, v) else findFieldByName rest vs n
  | _, _, _ => none

/-- The column-name fallback scan of `mapEntityToDTO` / `mapStructToStruct`:
the first entity field, in declaration order, whose own `getColumnName`
equals `col`, together with its value. -/
def scanByColumn : GoFields → GoVals → String → Option (GoType × GoVal)
  | .cons m t rest, .cons v vs, col =>
    if getColumnName m = col then some (t, v) else scanByColumn rest vs col
  | _, _, _ => none

/-- The two-step source lookup for one destination field: exact name match
first, else the column-name scan using `getColumnName` on both sides. -/
def lookupSource (sfs : GoFields) (svs : GoVals) (m : GoFieldMeta) :
    Option (GoType × GoVal) :=
  match findFieldByName sfs svs m.name with
  | some r => some r
  | none => scanByColumn sfs svs (getColumnName m)

/-- The head of a field-value list, with a default (the destination values
are always aligned with the destination fields in the library's uses). -/
def GoVals.headOr : GoVals → GoVal → GoVal
  | .cons v _, _ => v
  | .nil, d => d

/-- The tail of a field-value list. -/
def GoVals.tailOr : GoVals → GoVals
  | .cons _ vs => vs
  | .nil => .nil

/-- The elements of a slice value: a nil slice has none
(`reflect.Value.Len()` is 0 on a nil slice). -/
def srcElemsOf : GoVal → GoVals
  | .vSlice l => l
  | _ => .nil

/-! ### The mapping engine: `mapFieldValue`, `mapStructToStruct`,
`mapSliceToSlice` and the field loop shared by `mapEntityToDTO` and
`mapStructToStruct` (the source duplicates this loop verbatim in the two
functions, differing only in the error-message prefix, which is passed here
as `msg`; the loop body for one destination field is split out as
`mapOneField`, and the slice element body as `mapSliceElem`). -/

mutual
/-- `mapFieldValue` from the source: direct conversion when the source type
is convertible to the destination type; else struct-to-struct recursion
(also through a non-nil pointer-to-struct source); else slice-to-slice
mapping; else the destination is left unchanged (silent skip). -/
def mapFieldValue (srcT : GoType) (srcV : GoVal) (dstT : GoType)
    (dstV : GoVal) : Except String GoVal :=
  if convertibleTo srcT dstT then .ok (convert srcT srcV dstT)
  else
    match srcT, srcV, dstT, dstV with
    | .tStruct sfs, .vStruct svs, .tStruct dfs, .vStruct dvs =>
      match mapStructToStruct sfs svs dfs dvs with
      | .ok r => .ok (.vStruct r)
      | .error e => .error e
    | .tPtr (.tStruct sfs), .vPtr (.vStruct svs), .tStruct dfs, .vStruct dvs =>
      match mapStructToStruct sfs svs dfs dvs with
      | .ok r => .ok (.vStruct r)
      | .error e => .error e
    | .tSlice sE, sv, .tSlice dE, dv => mapSliceToSlice sE sv dE dv
    | _, _, _, _ => .ok dstV
  termination_by (sizeOf dstT, 2, 0)

/-- `mapStructToStruct` from the source: the per-field loop with message
prefix `"error mapping nested field "`. -/
def mapStructToStruct (sfs : GoFields) (svs : GoVals) (dfs : GoFields)
    (dvs : GoVals) : Except String GoVals :=
  mapFieldsLoop "error mapping nested field " sfs svs dfs dvs
  termination_by (sizeOf dfs, 1, 0)

/-- The body of the per-field loop for one destination field: unexported
(non-settable) fields and fields with no resolvable source keep their
current (zero) value `dv`; otherwise `mapFieldValue` maps the looked-up
source into the field, and its error is wrapped with `msg` and the field
name. -/
def mapOneField (msg : String) (sfs : GoFields) (svs : GoVals)
    (m : GoFieldMeta) (t : GoType) (dv : GoVal) : Except String GoVal :=
  if m.exported = false then .ok dv
  else
    match lookupSource sfs svs m with
    | none => .ok dv
    | some (sT, sV) =>
      match mapFieldValue sT sV t dv with
      | .ok v => .ok v
      | .error e => .error (msg ++ m.name ++ ": " ++ e)
  termination_by (sizeOf t, 3, 0)

/-- The per-destination-field loop of `mapEntityToDTO` and
`mapStructToStruct`. -/
def mapFieldsLoop (msg : String) (sfs : GoFields) (svs : GoVals) :
    GoFields → GoVals → Except String GoVals
  | .nil, _ => .ok .nil
  | .cons m t rest, dvs =>
    match mapOneField msg sfs svs m t (dvs.headOr (zeroVal t)) with
    | .error e => .error e
    | .ok d =>
      match mapFieldsLoop msg sfs svs rest dvs.tailOr with
      | .error e => .error e
      | .ok ds => .ok (.cons d ds)
  termination_by dfs _ => (sizeOf dfs, 0, 0)

/-- `mapSliceToSlice` from the source: an empty (or nil) source slice
returns with the destination untouched; otherwise a fresh destination slice
of equal length is built (`reflect.MakeSlice`) and filled elementwise. -/
def mapSliceToSlice (sE : GoType) (srcV : GoVal) (dE : GoType)
    (dstV : GoVal) : Except String GoVal :=
  match srcElemsOf srcV with
  | .nil => .ok dstV
  | .cons s rest =>
    match mapSliceElems sE dE (.cons s rest) 0 with
    | .ok ds => .ok (.vSlice ds)
    | .error e => .error e
  termination_by (sizeOf dE, 1, 0)

/-- The body of the element loop for one source element: struct elements
(struct element kinds on both sides) are mapped by `mapStructToStruct` into
a zero-valued destination element, errors wrapped with the element index;
otherwise a convertible element is converted and anything else is left at
the destination element's zero value (`reflect.MakeSlice` zeroes). -/
def mapSliceElem (sE dE : GoType) (s : GoVal) (i : Nat) :
    Except String GoVal :=
  match sE, dE, s with
  | .tStruct sfs, .tStruct dfs, .vStruct svs =>
    match mapStructToStruct sfs svs dfs (zeroFields dfs) with
    | .ok dvs => .ok (.vStruct dvs)
    | .error e => .error ("error mapping slice element " ++ toString i ++ ": " ++ e)
  | _, _, _ =>
    if convertibleTo sE dE then .ok (convert sE s dE) else .ok (zeroVal dE)
  termination_by (sizeOf dE, 0, 0)

/-- The element loop of `mapSliceToSlice`, carrying the element index `i`
for error messages. -/
def mapSliceElems (sE dE : GoType) (srcs : GoVals) (i : Nat) :
    Except String GoVals :=
  match srcs with
  | .nil => .ok .nil
  | .cons s rest =>
    match mapSliceElem sE dE s i with
    | .error e => .error e
    | .ok d =>
      match mapSliceElems sE dE rest (i + 1) with
      | .error e => .error e
      | .ok ds => .ok (.cons d ds)
  termination_by (sizeOf dE, 0, sizeOf srcs)
end

/-- `mapEntityToDTO` from the source: fails on a nil entity; otherwise a
zero-valued DTO instance is built and populated field by field by the same
loop as `mapStructToStruct`, with message prefix `"error mapping field "`.
The source returns a pointer to the DTO which every caller immediately
dereferences; the embedding returns the DTO value itself.  Non-struct
entity or DTO types would panic in Go (`NumField`); they are unreachable in
the library and modelled as the zero value. -/
def mapEntityToDTO (entity : Option (GoType × GoVal)) (dtoT : GoType) :
    Except String GoVal :=
  match entity with
  | none => .error "entity cannot be nil"
  | some (eT, eV) =>
    let dT := derefPtrType dtoT
    match dT, eT, eV with
    | .tStruct dfs, .tStruct efs, .vStruct evs =>
      match mapFieldsLoop "error mapping field " efs evs dfs (zeroFields dfs) with
      | .ok ds => .ok (.vStruct ds)
      | .error e => .error e
    | _, _, _ => .ok (zeroVal dT)

/-! ### Top-level slice projection helpers -/

/-- The element loop shared by `ProjectEntitySlice` and `ProjectSlice`:
each entity is mapped by `mapEntityToDTO` (the returned DTO pointer is
dereferenced and appended); a failure aborts with the wrap
`"error converting entity: "` — note the wrap carries no element index. -/
def projectSliceLoop (eT : GoType) (dtoT : GoType) :
    List GoVal → Except String GoVals
  | [] => .ok .nil
  | e :: rest =>
    match mapEntityToDTO (some (eT, e)) dtoT with
    | .error err => .error ("error converting entity: " ++ err)
    | .ok d =>
      match projectSliceLoop eT dtoT rest with
      | .error err => .error err
      | .ok ds => .ok (.cons d ds)

/-- `ProjectEntitySlice` from the source: nil slice is an error; an empty
slice yields a fresh empty (non-nil) DTO slice (`reflect.MakeSlice`);
otherwise the entities are mapped elementwise in order. -/
def ProjectEntitySlice (eT : GoType) (entities : Option (List GoVal))
    (dtoT : GoType) : Except String GoVal :=
  match entities with
  | none => .error "entity slice cannot be nil"
  | some [] => .ok (.vSlice .nil)
  | some es =>
    match projectSliceLoop eT dtoT es with
    | .ok ds => .ok (.vSlice ds)
    | .error e => .error e

/-! ### The fluent repository state -/

/-- The accumulated query-builder state of the underlying `gorm.DB` handle,
restricted to the directives the claims are about.  `gorm` chain calls
accumulate: `Where` appends a condition, `Preload` appends an eager-load,
`Select` replaces the select clause, and `Model` sets the model while
keeping every previously accumulated directive. -/
structure GormDB where
  modelSet : Bool := false
  wheres : List (String × GoVal) := []
  preloads : List String := []
  selectClause : Option String := none
deriving DecidableEq, Repr

/-- `db.Model(new(T))`: sets the model, keeps all accumulated state. -/
def GormDB.model (db : GormDB) : GormDB := { db with modelSet := true }

/-- `db.Where(cond, arg)`: appends a condition. -/
def GormDB.where_ (db : GormDB) (cond : String) (arg : GoVal) : GormDB :=
  { db with wheres := db.wheres ++ [(cond, arg)] }

/-- `db.Preload(name)`: appends an eager-load directive. -/
def GormDB.preload (db : GormDB) (name : String) : GormDB :=
  { db with preloads := db.preloads ++ [name] }

/-- `db.Select(clause)`: replaces the select clause. -/
def GormDB.select (db : GormDB) (clause : String) : GormDB :=
  { db with selectClause := some clause }

/-- `GenericRepository[T]` from the source (fluent revision): the query
handle, the configured projection (a DTO type) and mode, the two result
slots and the last-error slot.  `entityT` records the type parameter `T`. -/
structure Repo where
  entityT : GoType
  db : GormDB := {}
  projection : Option GoType := none
  projectionMode : String := ""
  currentResult : Option GoVal := none
  currentSlice : Option (List GoVal) := none
  lastError : Option String := none
deriving DecidableEq, Repr

/-- `ProjectToDTO` from the source: builds a new repository value carrying
the same handle, results and error, with the projection attached; if the DTO
has composite (struct) fields each extracted preload is registered on the
new handle and no select clause is touched, else the projection columns, if
any, are applied as a single comma-and-space-joined select clause. -/
def ProjectToDTO (r : Repo) (dtoT : GoType) : Repo :=
  let newRepo : Repo :=
    { entityT := r.entityT
      db := r.db
      projection := some dtoT
      projectionMode := "dto"
      currentResult := r.currentResult
      currentSlice := r.currentSlice
      lastError := r.lastError }
  if hasStructFields dtoT then
    { newRepo with
        db := (extractPreloadsFromDTO dtoT).foldl (fun d p => d.preload p) newRepo.db }
  else
    let fields := createProjectionFromDTO dtoT
    if fields.length > 0 then
      { newRepo with db := newRepo.db.select (String.intercalate ", " fields) }
    else newRepo

/-- `Project` from the source: requires a configured projection and a stored
single result, then maps it. -/
def Project (r : Repo) : Except String GoVal :=
  match r.projection with
  | none => .error "no projection configured - use ProjectToDTO() first"
  | some p =>
    match r.currentResult with
    | none => .error "no current result available - execute a query first (FindOne, FindByID, etc.)"
    | some res => mapEntityToDTO (some (r.entityT, res)) p

/-- `ProjectSlice` from the source: a stored error is returned as is; then a
stored collection result and a configured projection are required; an empty
stored slice yields a fresh empty non-nil DTO slice; otherwise elementwise
mapping as in `ProjectEntitySlice`. -/
def ProjectSlice (r : Repo) : Except String GoVal :=
  match r.lastError with
  | some e => .error e
  | none =>
    match r.currentSlice with
    | none => .error "no slice result available for conversion"
    | some slice =>
      match r.projection with
      | none => .error "no projection configured - use ProjectToDTO() first"
      | some p =>
        match slice with
        | [] => .ok (.vSlice .nil)
        | es =>
          match projectSliceLoop r.entityT p es with
          | .ok ds => .ok (.vSlice ds)
          | .error e => .error e

/-- The query the source's `Count` executes: a repository built around
`r.db.Model(new(T))` — the current handle with the model set, retaining all
previously accumulated directives — with one appended equality condition
`"<key> = ?"` per filter entry.  (Go iterates the filter map in unspecified
order; the embedding takes the filters as an ordered list.) -/
def countQuery (r : Repo) (filters : List (String × GoVal)) : GormDB :=
  filters.foldl (fun d kv => d.where_ (kv.1 ++ " = ?") kv.2) r.db.model

/-- `Count` from the source, with the underlying engine's count execution
abstracted as an oracle `exec` from the built query to a count and an
optional error. -/
def Count (exec : GormDB → Int × Option String) (r : Repo)
    (filters : List (String × GoVal)) : Int × Option String :=
  exec (countQuery r filters)

/-- `Exists` from the source: `count > 0` with `Count`'s error. -/
def Exists (exec : GormDB → Int × Option String) (r : Repo)
    (filters : List (String × GoVal)) : Bool × Option String :=
  let c := Count exec r filters
  (decide (c.1 > 0), c.2)

/-! ### The primary-key helper (`pkhelper`) -/

/-- The primary-key condition on one field: name case-insensitively equal to
`"id"`, or `gorm` tag containing `"primaryKey"`. -/
def isPKField (m : GoFieldMeta) : Bool :=
  strEqualFold m.name "id" ∨ strContains m.tag.gorm "primaryKey"

/-- Whether a value is of struct kind (`fieldVal.Kind() == reflect.Struct`). -/
def isStructVal : GoVal → Bool
  | .vStruct _ => true
  | _ => false

mutual
/-- `findPrimaryKey` from the source: walk the fields in declaration order;
the first field satisfying the primary-key condition wins; a field that is
anonymous and of struct kind (checked on the value) is recursed into before
moving to the next sibling. -/
def findPrimaryKey : GoType → GoVal → Option (String × GoVal)
  | .tStruct fs, .vStruct vs => findPKFields fs vs
  | _, _ => none

/-- The field loop of `findPrimaryKey`. -/
def findPKFields : GoFields → GoVals → Option (String × GoVal)
  | .cons m t rest, .cons v vs =>
    if isPKField m then some (m.name, v)
    else
      match (if m.anonymous && isStructVal v then findPrimaryKey t v else none) with
      | some r => some r
      | none => findPKFields rest vs
  | _, _ => none
end

/-- One level of pointer dereference on a typed value (`if val.Kind() ==
Ptr { val = val.Elem() }`; the library only calls the helper with non-nil
entity pointers, so a nil pointer is left in place). -/
def derefPtrVal : GoType × GoVal → GoType × GoVal
  | (.tPtr t, .vPtr v) => (t, v)
  | p => p

/-- `GetPrimaryKey` from the source: an entity exposing the explicit
identity-accessor capability (`GetID()`, modelled as `providerID`) yields
the fixed name `"id"` with the accessor's value; otherwise tag/name
introspection via `findPrimaryKey` after a pointer dereference; no primary
key found is an error (the Go message interpolates the entity's type name
via `%T`, elided here). -/
def GetPrimaryKey (providerID : Option GoVal) (entity : GoType × GoVal) :
    Except String (String × GoVal) :=
  match providerID with
  | some x => .ok ("id", x)
  | none =>
    let (t, v) := derefPtrVal entity
    match findPrimaryKey t v with
    | some (n, pv) => .ok (n, pv)
    | none => .error "primary key not found"

/-! ### Claim-side auxiliary definitions (written from the specification's
wording, for comparison against the source-derived functions) -/

/-- The derived-name rule as the specification words it: keep the first
character, insert an underscore before every subsequent uppercase letter,
then lower-case the whole string. -/
def specSnakeCase (s : String) : String :=
  match s.toList with
  | [] => ""
  | c :: cs =>
    String.mk
      ((c :: (cs.map (fun d => if 'A' ≤ d ∧ d ≤ 'Z' then ['_', d] else [d])).flatten).map
        Char.toLower)

/-- The first comma-delimited segment of a serialization tag. -/
def jsonFirstSegment (json : String) : String :=
  String.mk ((splitOnChar ',' json.toList).headD [])

def dirtyRepo : Repo :=
  { entityT := .tStruct .nil
    db := { preloads := ["Profile"], selectClause := some "name",
            wheres := [("age > ?", .vInt 10)] } }

def emptyDTO : GoType := .tStruct .nil

def dtoComposite : GoType :=
  .tStruct (.cons { name := "Profile", tag := {} }
    (.tStruct (.cons { name := "Bio" } .tString .nil)) .nil)

def dtoBasic : GoType :=
  .tStruct (.cons { name := "Name" } .tString
    (.cons { name := "Email", tag := { json := "email,omitempty" } } .tString .nil))

def dtoPtrBasic : GoType := .tStruct (.cons { name := "Age" } (.tPtr .tInt) .nil)

/-! ### Structural induction helper and reflexivity of convertibility -/

mutual
/-- Structural size of a type, recursing into every sub-type; its induction
principle is reused for structural proofs over `GoType`/`GoFields`. -/
def typeSize : GoType → Nat
  | .tStruct fs => 1 + fieldsSize fs
  | .tPtr t => 1 + typeSize t
  | .tSlice t => 1 + typeSize t
  | _ => 1

/-- Structural size of a field list. -/
def fieldsSize : GoFields → Nat
  | .nil => 0
  | .cons _ t rest => 1 + typeSize t + fieldsSize rest
end

/-! ### C1: concrete scenarios -/

/-- Entity type for the C1 counterexample: one field `Qux int` with
persistence column `bar`. -/
def entC1cexFields : GoFields :=
  .cons { name := "Qux", tag := { gorm := "column:bar" } } .tInt .nil

/-- Entity value `{Qux: 5}`. -/
def entC1cexVals : GoVals := .cons (.vInt 5) .nil

/-- DTO type for the C1 counterexample: one field `Foo int` with projection
tag `bar`. -/
def dtoC1cexFields : GoFields :=
  .cons { name := "Foo", tag := { projection := "bar" } } .tInt .nil

/-- Entity for the C1 witness: field `Qux int` with persistence column
`foo`, value 5. -/
def entC1witFields : GoFields :=
  .cons { name := "Qux", tag := { gorm := "column:foo" } } .tInt .nil

/-- Entity value `{Qux: 5}`. -/
def entC1witVals : GoVals := .cons (.vInt 5) .nil

/-- DTO for the C1 witness: untagged field `Foo int`, whose `getColumnName`
is `foo`. -/
def dtoC1witFields : GoFields := .cons { name := "Foo" } .tInt .nil

/-! ### C4: the specification's round-trip scenario -/

/-- Entity type `{ID int; Name string; Email string}`. -/
def entC4fields : GoFields :=
  .cons { name := "ID" } .tInt (.cons { name := "Name" } .tString
    (.cons { name := "Email" } .tString .nil))

/-- Entity value `{ID: 7, Name: "Ana", Email: "a@x.com"}`. -/
def entC4vals : GoVals :=
  .cons (.vInt 7) (.cons (.vString "Ana") (.cons (.vString "a@x.com") .nil))

/-- DTO type `{Name string; Email string}`. -/
def dtoC4fields : GoFields :=
  .cons { name := "Name" } .tString (.cons { name := "Email" } .tString .nil)

/-- Repository state for the C5 witness: a stored one-element collection, a
configured projection, no stored error. -/
def repoC5 : Repo :=
  { entityT := .tStruct .nil
    currentSlice := some [.vStruct .nil]
    projection := some (.tStruct .nil) }

/-! ### C10: empty-slice mapping -/

/-- Entity type for the C10 counterexample: one field `Items []int`. -/
def entC10fields : GoFields := .cons { name := "Items" } (.tSlice .tInt) .nil

/-- Entity value whose `Items` is an empty non-nil slice. -/
def entC10vals : GoVals := .cons (.vSlice .nil) .nil

/-- DTO type with the same `Items []int` field. -/
def dtoC10fields : GoFields := .cons { name := "Items" } (.tSlice .tInt) .nil

/-! ### C7: primary-key resolution -/

mutual
/-- The claim-side characterization of primary-key search: the depth-first,
sibling-ordered list of all candidate fields — a field is listed when its
name case-insensitively equals `"id"` or its persistence tag marks a
primary key, and an anonymous struct-kind field's own candidates are listed
after the field itself and before its later siblings. -/
def pkCandidates : GoType → GoVal → List (String × GoVal)
  | .tStruct fs, .vStruct vs => pkCandidatesFields fs vs
  | _, _ => []

/-- Candidates of a field list, in declaration order. -/
def pkCandidatesFields : GoFields → GoVals → List (String × GoVal)
  | .cons m t rest, .cons v vs =>
    (if isPKField m then [(m.name, v)] else [])
      ++ (if m.anonymous && isStructVal v then pkCandidates t v else [])
      ++ pkCandidatesFields rest vs
  | _, _ => []
end

/-- `Base struct{ID int}` for the C7 embedded scenario. -/
def baseC7fields : GoFields := .cons { name := "ID" } .tInt .nil

/-- `User struct{Base; Name string}` with `Base` anonymous. -/
def userC7T : GoType :=
  .tStruct (.cons { name := "Base", anonymous := true } (.tStruct baseC7fields)
    (.cons { name := "Name" } .tString .nil))

/-- A `User` value with `Base.ID = 42`. -/
def userC7V : GoVal :=
  .vStruct (.cons (.vStruct (.cons (.vInt 42) .nil)) (.cons (.vString "Ana") .nil))

/-! ### Theorems -/

/-! ### Helper lemmas -/

theorem preloadFold_preloads (ps : List String) (db : GormDB) :
    (ps.foldl (fun d p => d.preload p) db).preloads = db.preloads ++ ps := by
  induction ps generalizing db with
  | nil => simp
  | cons p ps ih =>
    rw [List.foldl_cons, ih]
    simp [GormDB.preload]

theorem preloadFold_selectClause (ps : List String) (db : GormDB) :
    (ps.foldl (fun d p => d.preload p) db).selectClause = db.selectClause := by
  induction ps generalizing db with
  | nil => rfl
  | cons p ps ih =>
    rw [List.foldl_cons, ih]
    rfl

theorem extractPreloads_go_eq (fs : GoFields) :
    extractPreloadsFromDTO.go fs =
      (fs.toList.filter
        (fun ft => isStructKind (derefPtrType ft.2) && !isBasicType (derefPtrType ft.2))).map
        (fun ft => if ft.1.tag.preload = "" then ft.1.name else ft.1.tag.preload) := by
  induction fs using GoFields.toList.induct with
  | case1 => rfl
  | case2 m t rest ih =>
    by_cases h1 : isStructKind (derefPtrType t) = true
    · by_cases h2 : isBasicType (derefPtrType t) = true
      · simp [extractPreloadsFromDTO.go, GoFields.toList, h1, h2, ih]
      · simp [extractPreloadsFromDTO.go, GoFields.toList, h1, h2, ih]
    · simp [extractPreloadsFromDTO.go, GoFields.toList, h1, ih]

theorem createProjection_go_eq (fs : GoFields) :
    createProjectionFromDTO.go fs =
      (fs.toList.filter (fun ft => ft.1.exported && isBasicType ft.2)).map
        (fun ft => getColumnNameFromDTO ft.1) := by
  induction fs using GoFields.toList.induct with
  | case1 => rfl
  | case2 m t rest ih =>
    by_cases h1 : m.exported = true
    · by_cases h2 : isBasicType t = true
      · simp [createProjectionFromDTO.go, GoFields.toList, h1, h2, ih]
      · simp [createProjectionFromDTO.go, GoFields.toList, h1, h2, ih]
    · simp [createProjectionFromDTO.go, GoFields.toList, h1, ih]

theorem hasStructFields_go_eq (fs : GoFields) :
    hasStructFields.go fs =
      fs.toList.any
        (fun ft => isStructKind (derefPtrType ft.2) && !isBasicType (derefPtrType ft.2)) := by
  induction fs using GoFields.toList.induct with
  | case1 => rfl
  | case2 m t rest ih =>
    by_cases h1 : isStructKind (derefPtrType t) = true
    · by_cases h2 : isBasicType (derefPtrType t) = true
      · simp [hasStructFields.go, GoFields.toList, h1, h2, ih]
      · simp [hasStructFields.go, GoFields.toList, h1, h2, ih]
    · simp [hasStructFields.go, GoFields.toList, h1, ih]

theorem snakeChars_false (cs : List Char) :
    snakeChars false cs
      = (cs.map (fun d => if 'A' ≤ d ∧ d ≤ 'Z' then ['_', d] else [d])).flatten := by
  induction cs with
  | nil => rfl
  | cons c cs ih =>
    by_cases h : 'A' ≤ c ∧ c ≤ 'Z'
    · simp [snakeChars, ih, h]
    · simp [snakeChars, ih, h]

theorem toSnakeCase_eq_spec (s : String) : toSnakeCase s = specSnakeCase s := by
  unfold toSnakeCase specSnakeCase
  cases h : s.toList with
  | nil => rfl
  | cons c cs => simp [snakeChars, snakeChars_false]

theorem gormColumnClause_empty : gormColumnClause "" = none := by decide

/-- Claim C3, confirmed.  For every struct field, the DTO-side column
resolver follows the claimed strict priority: a non-empty `projection` tag;
else a `column:` clause of the `gorm` tag; else the first comma-delimited
segment of a `json` tag that is non-empty and not the skip marker `"-"`;
else the derived snake-case name, which inserts an underscore before each
interior uppercase letter and lower-cases the result, so `UserID` yields
`user_i_d` and `Name` yields `name`. -/
theorem C3_thm (m : GoFieldMeta) :
    getColumnNameFromDTO m =
      (if m.tag.projection ≠ "" then m.tag.projection
       else
         match gormColumnClause m.tag.gorm with
         | some c => c
         | none =>
           if m.tag.json ≠ "" ∧ m.tag.json ≠ "-" then jsonFirstSegment m.tag.json
           else specSnakeCase m.name)
    ∧ toSnakeCase "UserID" = "user_i_d" ∧ toSnakeCase "Name" = "name" := by
  refine ⟨?_, by decide, by decide⟩
  unfold getColumnNameFromDTO
  by_cases hp : m.tag.projection = ""
  · have hgorm : (if m.tag.gorm ≠ "" then gormColumnClause m.tag.gorm else none)
        = gormColumnClause m.tag.gorm := by
      by_cases hg : m.tag.gorm = ""
      · rw [hg, gormColumnClause_empty]
        simp
      · simp [hg]
    rw [hgorm]
    simp only [hp, ne_eq, not_true_eq_false, if_false]
    cases hc : gormColumnClause m.tag.gorm with
    | some c => simp
    | none =>
      by_cases hj : m.tag.json ≠ "" ∧ m.tag.json ≠ "-"
      · simp only [hj, if_true]
        cases hs : splitOnChar ',' m.tag.json.toList with
        | nil =>
          unfold jsonFirstSegment
          rw [hs]
          simp
        | cons g gs =>
          unfold jsonFirstSegment
          rw [hs]
          simp
      · simp only [hj, if_false]
        exact toSnakeCase_eq_spec m.name
  · simp [hp]

theorem extractPreloads_eq (dtoT : GoType) :
    extractPreloadsFromDTO dtoT =
      ((structFields dtoT).toList.filter
        (fun ft => isStructKind (derefPtrType ft.2) && !isBasicType (derefPtrType ft.2))).map
        (fun ft => if ft.1.tag.preload = "" then ft.1.name else ft.1.tag.preload) := by
  unfold extractPreloadsFromDTO
  exact extractPreloads_go_eq _

theorem createProjection_eq (dtoT : GoType) :
    createProjectionFromDTO dtoT =
      ((structFields dtoT).toList.filter (fun ft => ft.1.exported && isBasicType ft.2)).map
        (fun ft => getColumnNameFromDTO ft.1) := by
  unfold createProjectionFromDTO
  exact createProjection_go_eq _

theorem hasStructFields_eq (dtoT : GoType) :
    hasStructFields dtoT =
      (structFields dtoT).toList.any
        (fun ft => isStructKind (derefPtrType ft.2) && !isBasicType (derefPtrType ft.2)) := by
  unfold hasStructFields
  exact hasStructFields_go_eq _

/-- Claim C8, confirmed.  `ProjectToDTO` builds a fresh repository value (the
embedding is pure, so the original state is untouched by construction, which
models the Go code allocating a new `GenericRepository` and never writing to
the receiver) in which the stored single result, stored collection result
and last error are exactly those of the original state, the projection is
attached, the mode is `"dto"`, and the entity type parameter carries over. -/
theorem C8_thm (r : Repo) (dtoT : GoType) :
    (ProjectToDTO r dtoT).currentResult = r.currentResult
  ∧ (ProjectToDTO r dtoT).currentSlice = r.currentSlice
  ∧ (ProjectToDTO r dtoT).lastError = r.lastError
  ∧ (ProjectToDTO r dtoT).projection = some dtoT
  ∧ (ProjectToDTO r dtoT).projectionMode = "dto"
  ∧ (ProjectToDTO r dtoT).entityT = r.entityT := by
  unfold ProjectToDTO
  by_cases h : hasStructFields dtoT = true
  · simp [h]
  · simp [h]
    split <;> simp [GormDB.select]

theorem whereFold (filters : List (String × GoVal)) (db : GormDB) :
    filters.foldl (fun d kv => d.where_ (kv.1 ++ " = ?") kv.2) db
      = { db with wheres := db.wheres ++ filters.map (fun kv => (kv.1 ++ " = ?", kv.2)) } := by
  induction filters generalizing db with
  | nil => simp
  | cons kv rest ih =>
    rw [List.foldl_cons, ih]
    simp [GormDB.where_]

/-- Counterexample to claim C9.  The claim says `Count` runs over a model-only
base inheriting none of the previously accumulated preload or select
directives and applies only the given filters.  In the source, the base is
`r.db.Model(new(T))` — the current handle with the model set — which
retains every accumulated directive: on a repository whose handle carries a
preload, a select clause and a condition, the count query still carries all
three even with an empty filter map. -/
theorem C9_cex :
    (countQuery dirtyRepo []).preloads = ["Profile"]
  ∧ (countQuery dirtyRepo []).selectClause = some "name"
  ∧ (countQuery dirtyRepo []).wheres = [("age > ?", GoVal.vInt 10)]
  ∧ ¬((countQuery dirtyRepo []).preloads = [] ∧ (countQuery dirtyRepo []).selectClause = none
      ∧ (countQuery dirtyRepo []).wheres = []) := by decide

/-- Claim C9 as amended.  `Count` executes an independent count query whose base
is the repository's current handle with the model set — so it inherits the
previously accumulated preload, select and filter directives — extended
with one equality condition per filter entry; `Exists` returns `count > 0`
together with the same error as `Count`. -/
theorem C9_thm (exec : GormDB → Int × Option String) (r : Repo)
    (filters : List (String × GoVal)) :
    countQuery r filters =
      { modelSet := true
        wheres := r.db.wheres ++ filters.map (fun kv => (kv.1 ++ " = ?", kv.2))
        preloads := r.db.preloads
        selectClause := r.db.selectClause }
  ∧ Count exec r filters = exec (countQuery r filters)
  ∧ Exists exec r filters
      = (decide ((Count exec r filters).1 > 0), (Count exec r filters).2) := by
  refine ⟨?_, rfl, rfl⟩
  unfold countQuery
  rw [whereFold]
  simp [GormDB.model]

/-- Counterexample to claim C2.  The claim says a DTO with no composite field
gets a select clause that is exactly its resolved column list joined by
commas.  A DTO type with no fields at all has no composite field and an
empty column list, yet the source applies no select clause (`len(fields) >
0` guard), where the claim demands the clause `""`. -/
theorem C2_cex :
    hasStructFields emptyDTO = false
  ∧ createProjectionFromDTO emptyDTO = []
  ∧ (ProjectToDTO { entityT := .tStruct .nil } emptyDTO).db.selectClause = none
  ∧ (ProjectToDTO { entityT := .tStruct .nil } emptyDTO).db.selectClause
      ≠ some (String.intercalate ", " (createProjectionFromDTO emptyDTO)) := by decide

/-- Claim C2 as amended.  If the DTO has at least one field whose
pointer-dereferenced type is a non-basic struct, `ProjectToDTO` registers
one eager-load per such composite field — named by its `preload` tag if
non-empty, else by the field name verbatim — in declaration order, and
leaves the select clause untouched; otherwise it registers no eager-load
and, when the column list is non-empty, applies a select clause that is
exactly the resolved column names of the DTO's exported basic fields, in
declaration order, joined by `", "` (a DTO with no exported basic field
gets no select clause at all). -/
theorem C2_thm (r : Repo) (dtoT : GoType) :
    (hasStructFields dtoT = true →
        (ProjectToDTO r dtoT).db.preloads = r.db.preloads ++ extractPreloadsFromDTO dtoT
      ∧ (ProjectToDTO r dtoT).db.selectClause = r.db.selectClause)
  ∧ (hasStructFields dtoT = false →
        (ProjectToDTO r dtoT).db.preloads = r.db.preloads
      ∧ (ProjectToDTO r dtoT).db.selectClause =
          (if createProjectionFromDTO dtoT = [] then r.db.selectClause
           else some (String.intercalate ", " (createProjectionFromDTO dtoT))))
  ∧ extractPreloadsFromDTO dtoT =
      ((structFields dtoT).toList.filter
        (fun ft => isStructKind (derefPtrType ft.2) && !isBasicType (derefPtrType ft.2))).map
        (fun ft => if ft.1.tag.preload = "" then ft.1.name else ft.1.tag.preload)
  ∧ createProjectionFromDTO dtoT =
      ((structFields dtoT).toList.filter (fun ft => ft.1.exported && isBasicType ft.2)).map
        (fun ft => getColumnNameFromDTO ft.1)
  ∧ hasStructFields dtoT =
      (structFields dtoT).toList.any
        (fun ft => isStructKind (derefPtrType ft.2) && !isBasicType (derefPtrType ft.2)) := by
  refine ⟨?_, ?_, extractPreloads_eq dtoT, createProjection_eq dtoT, hasStructFields_eq dtoT⟩
  · intro h
    unfold ProjectToDTO
    simp [h, preloadFold_preloads, preloadFold_selectClause]
  · intro h
    unfold ProjectToDTO
    simp [h]
    cases hf : createProjectionFromDTO dtoT with
    | nil => simp
    | cons c cs => simp [GormDB.select, GormDB.preload]

/-- Witness for C2: a DTO with one composite field yields exactly its
preload and no select clause; a DTO with two basic fields yields the
comma-joined select clause and no preload. -/
theorem C2_wit :
    (ProjectToDTO { entityT := .tStruct .nil } dtoComposite).db.preloads = ["Profile"]
  ∧ (ProjectToDTO { entityT := .tStruct .nil } dtoComposite).db.selectClause = none
  ∧ (ProjectToDTO { entityT := .tStruct .nil } dtoBasic).db.preloads = []
  ∧ (ProjectToDTO { entityT := .tStruct .nil } dtoBasic).db.selectClause
      = some "name, email" := by
  have h1 := (C2_thm { entityT := .tStruct .nil } dtoComposite).1 (by decide)
  have h2 := (C2_thm { entityT := .tStruct .nil } dtoBasic).2.1 (by decide)
  refine ⟨?_, ?_, ?_, ?_⟩
  · rw [h1.1]; decide
  · rw [h1.2]
  · rw [h2.1]
  · rw [h2.2]; decide

/-- Counterexample to claim C6.  The claim says the projection-shape computation
dereferences a pointer field before classification, so a pointer-to-basic
field contributes a selected column.  For a DTO whose single exported field
has type `*int`, the source's column computation (which classifies the
declared type with no dereference) yields no column at all — the claimed
column list `["age"]` is not produced — and no association either. -/
theorem C6_cex :
    createProjectionFromDTO dtoPtrBasic = []
  ∧ createProjectionFromDTO dtoPtrBasic ≠ [toSnakeCase "Age"]
  ∧ extractPreloadsFromDTO dtoPtrBasic = []
  ∧ hasStructFields dtoPtrBasic = false := by decide

/-- Claim C6 as amended.  Only the association-detection side
(`hasStructFields` / `extractPreloadsFromDTO`) dereferences pointer fields
before classification, so a pointer-to-struct field contributes an
association name; the column computation (`createProjectionFromDTO`)
classifies the declared field type without dereferencing, and a pointer
type is never basic, so a pointer-to-basic field contributes neither a
column nor an association. -/
theorem C6_thm (dtoT : GoType) (u : GoType) :
    createProjectionFromDTO dtoT =
      ((structFields dtoT).toList.filter (fun ft => ft.1.exported && isBasicType ft.2)).map
        (fun ft => getColumnNameFromDTO ft.1)
  ∧ extractPreloadsFromDTO dtoT =
      ((structFields dtoT).toList.filter
        (fun ft => isStructKind (derefPtrType ft.2) && !isBasicType (derefPtrType ft.2))).map
        (fun ft => if ft.1.tag.preload = "" then ft.1.name else ft.1.tag.preload)
  ∧ isBasicType (GoType.tPtr u) = false
  ∧ derefPtrType (GoType.tPtr u) = u
  ∧ isStructKind (GoType.tPtr u) = false :=
  ⟨createProjection_eq dtoT, extractPreloads_eq dtoT, rfl, rfl, rfl⟩

theorem identNoTags_refl :
    (∀ t, identNoTags t t = true) ∧ (∀ fs, identFieldsNoTags fs fs = true) := by
  apply typeSize.mutual_induct
  · intro fs ih
    simp [identNoTags, ih]
  · intro t ih
    simp [identNoTags, ih]
  · intro t ih
    simp [identNoTags, ih]
  · intro t h1 h2 h3
    cases t with
    | tStruct fs => exact absurd rfl (h1 fs)
    | tPtr e => exact absurd rfl (h2 e)
    | tSlice e => exact absurd rfl (h3 e)
    | tString => rfl
    | tBool => rfl
    | tInt => rfl
    | tInt64 => rfl
    | tFloat64 => rfl
  · rfl
  · intro m t rest ih1 ih2
    simp [identFieldsNoTags, ih1, ih2]

theorem convertibleTo_refl (t : GoType) : convertibleTo t t = true := by
  simp [convertibleTo, identNoTags_refl.1 t]

theorem convert_self (t : GoType) (v : GoVal) : convert t v t = v := by
  simp [convert, identNoTags_refl.1 t]

/-! ### Totality of the mapping engine: errors are only ever created by the
nil-entity check in `mapEntityToDTO`; every recursive mapping function
returns `ok` on every input.  (In the source, every `return error` inside
the mapping recursion wraps an error of a recursive call, and no base case
produces one.) -/

theorem mapTotal :
    (∀ sT sV dT dV, ∃ r, mapFieldValue sT sV dT dV = .ok r)
  ∧ (∀ sE sv dE dv, ∃ r, mapSliceToSlice sE sv dE dv = .ok r)
  ∧ (∀ sE dE srcs i, ∃ r, mapSliceElems sE dE srcs i = .ok r)
  ∧ (∀ sE dE s i, ∃ r, mapSliceElem sE dE s i = .ok r)
  ∧ (∀ sfs svs dfs dvs, ∃ r, mapStructToStruct sfs svs dfs dvs = .ok r)
  ∧ (∀ msg sfs svs dfs dvs, ∃ r, mapFieldsLoop msg sfs svs dfs dvs = .ok r)
  ∧ (∀ msg sfs svs m t dv, ∃ r, mapOneField msg sfs svs m t dv = .ok r) := by
  apply mapFieldValue.mutual_induct
  all_goals intros
  all_goals try simp_all only [mapFieldValue, mapStructToStruct, mapSliceToSlice, mapSliceElems,
    mapSliceElem, mapFieldsLoop, mapOneField]
  all_goals try exact ⟨_, rfl⟩
  all_goals try simp_all
  rename_i sT sV dT dV h
  refine ⟨convert sT sV dT, ?_⟩
  rw [mapFieldValue.eq_def]
  simp [h]

/-! ### Characterization of the field loop on a zero-initialized destination -/

theorem mapFieldsLoop_zero (msg : String) (sfs : GoFields) (svs : GoVals) :
    ∀ dfs : GoFields, ∃ ds : GoVals,
      mapFieldsLoop msg sfs svs dfs (zeroFields dfs) = .ok ds
      ∧ ds.length = dfs.length
      ∧ (∀ i m t, dfs.toList.get? i = some (m, t) →
          ∃ d, mapOneField msg sfs svs m t (zeroVal t) = .ok d ∧ ds.get? i = some d) := by
  intro dfs
  induction dfs using GoFields.toList.induct with
  | case1 =>
    refine ⟨.nil, by simp [mapFieldsLoop], rfl, ?_⟩
    intro i m t h
    simp [GoFields.toList] at h
  | case2 m t rest ih =>
    obtain ⟨ds, hds, hlen, hget⟩ := ih
    obtain ⟨d, hd⟩ := mapTotal.2.2.2.2.2.2 msg sfs svs m t (zeroVal t)
    refine ⟨.cons d ds, ?_, ?_, ?_⟩
    · simp only [mapFieldsLoop, zeroFields, GoVals.headOr, GoVals.tailOr]
      rw [hd, hds]
    · simp [GoVals.length, GoFields.length, hlen]
    · intro i m' t' hi
      match i with
      | 0 =>
        simp only [GoFields.toList, List.get?] at hi
        obtain ⟨hm, ht⟩ := Prod.mk.injEq .. ▸ (Option.some.injEq .. ▸ hi)
        subst hm
        subst ht
        exact ⟨d, hd, rfl⟩
      | Nat.succ j =>
        simp only [GoFields.toList, List.get?] at hi
        obtain ⟨d', hd', hds'⟩ := hget j m' t' hi
        exact ⟨d', hd', hds'⟩

theorem mapEntityToDTO_struct_ok (efs : GoFields) (evs : GoVals) (dfs : GoFields) (ds : GoVals)
    (h : mapFieldsLoop "error mapping field " efs evs dfs (zeroFields dfs) = .ok ds) :
    mapEntityToDTO (some (.tStruct efs, .vStruct evs)) (.tStruct dfs) = .ok (.vStruct ds) := by
  simp [mapEntityToDTO, derefPtrType, h]

/-- Computation of `mapOneField` when the exact-name lookup succeeds with a
source field of the same type: the entity value is copied exactly. -/
theorem mapOneField_exact (msg : String) (sfs : GoFields) (svs : GoVals)
    (m : GoFieldMeta) (t : GoType) (v : GoVal) (dv : GoVal)
    (hexp : m.exported = true)
    (hfind : findFieldByName sfs svs m.name = some (t, v)) :
    mapOneField msg sfs svs m t dv = .ok v := by
  have hmv : mapFieldValue t v t dv = .ok v := by
    rw [mapFieldValue.eq_def]
    simp [convertibleTo_refl, convert_self]
  rw [mapOneField.eq_def]
  simp [hexp, lookupSource, hfind, hmv]

/-- Computation of `mapOneField` when there is no exact-name match and the
column scan finds a convertible source: the converted value is assigned. -/
theorem mapOneField_scan (msg : String) (sfs : GoFields) (svs : GoVals)
    (m : GoFieldMeta) (t sT : GoType) (sV : GoVal) (dv : GoVal)
    (hexp : m.exported = true)
    (hname : findFieldByName sfs svs m.name = none)
    (hcol : scanByColumn sfs svs (getColumnName m) = some (sT, sV))
    (hconv : convertibleTo sT t = true) :
    mapOneField msg sfs svs m t dv = .ok (convert sT sV t) := by
  have hmv : mapFieldValue sT sV t dv = .ok (convert sT sV t) := by
    rw [mapFieldValue.eq_def]
    simp [hconv]
  rw [mapOneField.eq_def]
  simp [hexp, lookupSource, hname, hcol, hmv]

/-- Claim C4, confirmed.  For every entity struct and DTO struct whose
exported fields are a name-and-type subset of the entity's fields (every
exported DTO field has an exact-name match on the entity with the identical
type), `mapEntityToDTO` succeeds and populates every exported DTO field
with exactly the corresponding entity field's value. -/
theorem C4_thm (efs : GoFields) (evs : GoVals) (dfs : GoFields)
    (hsub : ∀ p ∈ dfs.toList, p.1.exported = true →
      Option.map Prod.fst (findFieldByName efs evs p.1.name) = some p.2) :
    ∃ ds : GoVals,
      mapEntityToDTO (some (.tStruct efs, .vStruct evs)) (.tStruct dfs) = .ok (.vStruct ds)
      ∧ ds.length = dfs.length
      ∧ ∀ i m t, dfs.toList.get? i = some (m, t) → m.exported = true →
          ∃ v, findFieldByName efs evs m.name = some (t, v) ∧ ds.get? i = some v := by
  obtain ⟨ds, hds, hlen, hget⟩ := mapFieldsLoop_zero "error mapping field " efs evs dfs
  refine ⟨ds, mapEntityToDTO_struct_ok _ _ _ _ hds, hlen, ?_⟩
  intro i m t hi hexp
  have hmem : (m, t) ∈ dfs.toList := by
    have := List.get?_eq_some.mp hi
    obtain ⟨hlt, hg⟩ := this
    exact hg ▸ List.get_mem dfs.toList _ _
  have hfst := hsub (m, t) hmem hexp
  cases hfind : findFieldByName efs evs m.name with
  | none => rw [hfind] at hfst; cases hfst
  | some p =>
    obtain ⟨t', v⟩ := p
    rw [hfind] at hfst
    have ht : t' = t := by simpa using hfst
    subst ht
    obtain ⟨d, hd, hds'⟩ := hget i m t' hi
    rw [mapOneField_exact _ _ _ _ _ _ _ hexp hfind] at hd
    injection hd with hdv
    exact ⟨v, rfl, by rw [hds', hdv]⟩

/-- Claim C1 as amended, the general form.  When a DTO field has no exact-name match
on the entity, the source's fallback resolves both the DTO field's and
the entity fields' column names with `getColumnName` — the `column:` clause
of the `gorm` tag, else the derived snake-case name, ignoring the
`projection` and `json` tags — and assigns from the first entity field, in
declaration order, whose `getColumnName` equals the DTO field's, when the
source value's type is convertible to the DTO field's type. -/
theorem C1_thm (efs : GoFields) (evs : GoVals) (dfs : GoFields) (i : Nat)
    (m : GoFieldMeta) (t sT : GoType) (sV : GoVal)
    (hi : dfs.toList.get? i = some (m, t)) (hexp : m.exported = true)
    (hname : findFieldByName efs evs m.name = none)
    (hcol : scanByColumn efs evs (getColumnName m) = some (sT, sV))
    (hconv : convertibleTo sT t = true) :
    ∃ ds : GoVals,
      mapEntityToDTO (some (.tStruct efs, .vStruct evs)) (.tStruct dfs) = .ok (.vStruct ds)
      ∧ ds.get? i = some (convert sT sV t) := by
  obtain ⟨ds, hds, hlen, hget⟩ := mapFieldsLoop_zero "error mapping field " efs evs dfs
  refine ⟨ds, mapEntityToDTO_struct_ok _ _ _ _ hds, ?_⟩
  obtain ⟨d, hd, hds'⟩ := hget i m t hi
  rw [mapOneField_scan _ _ _ _ _ _ _ _ hexp hname hcol hconv] at hd
  injection hd with hdv
  rw [hds', ← hdv]

/-- Counterexample to claim C1.  The claim says the fallback resolves the DTO
field's column name by the §4.3 priority order, in which the projection tag
wins.  DTO field `Foo` carries projection tag `bar`; entity field `Qux`
carries persistence column `bar` and value `5`; there is no exact-name
match and `int` is convertible to `int` — so under the claim `Foo` must
receive `5`.  The source instead resolves both sides with `getColumnName`
(which ignores the projection tag, yielding `foo`), finds no matching
entity column, and leaves `Foo` at `0`. -/
theorem C1_cex :
    getColumnNameFromDTO { name := "Foo", tag := { projection := "bar" } } = "bar"
  ∧ getColumnNameFromDTO { name := "Qux", tag := { gorm := "column:bar" } } = "bar"
  ∧ findFieldByName entC1cexFields entC1cexVals "Foo" = none
  ∧ convertibleTo .tInt .tInt = true
  ∧ getColumnName { name := "Foo", tag := { projection := "bar" } } = "foo"
  ∧ scanByColumn entC1cexFields entC1cexVals "foo" = none
  ∧ mapEntityToDTO (some (.tStruct entC1cexFields, .vStruct entC1cexVals))
      (.tStruct dtoC1cexFields) = .ok (.vStruct (.cons (.vInt 0) .nil))
  ∧ (GoVal.vInt 0) ≠ .vInt 5 := by
  refine ⟨by decide, by decide, by decide, by decide, by decide, by decide, ?_, by decide⟩
  simp [mapEntityToDTO, entC1cexFields, entC1cexVals, dtoC1cexFields, mapFieldsLoop,
    mapOneField, lookupSource, findFieldByName, scanByColumn, getColumnName, mapFieldValue,
    convertibleTo, identNoTags, convert, zeroFields, zeroVal, gormColumnClause, toSnakeCase,
    derefPtrType, splitOnChar, columnOfParts, snakeChars, GoVals.headOr, GoVals.tailOr]

/-- Witness for the amended C1: with no exact-name match, the DTO field
`Foo` (derived column `foo`) is filled from the entity field whose
`getColumnName` is `foo`. -/
theorem C1_wit :
    ∃ ds : GoVals,
      mapEntityToDTO (some (.tStruct entC1witFields, .vStruct entC1witVals))
        (.tStruct dtoC1witFields) = .ok (.vStruct ds)
      ∧ ds.get? 0 = some (.vInt 5) := by
  obtain ⟨ds, hm, hg⟩ := C1_thm entC1witFields entC1witVals dtoC1witFields 0
    { name := "Foo" } .tInt .tInt (.vInt 5) (by decide) (by decide) (by decide) (by decide)
    (by decide)
  refine ⟨ds, hm, ?_⟩
  rw [hg]
  decide

/-- Witness for C4: the specification's scenario — entity
`{ID:7, Name:"Ana", Email:"a@x.com"}` projected to DTO `{Name, Email}`
yields `{Name:"Ana", Email:"a@x.com"}`. -/
theorem C4_wit :
    ∃ ds : GoVals,
      mapEntityToDTO (some (.tStruct entC4fields, .vStruct entC4vals)) (.tStruct dtoC4fields)
        = .ok (.vStruct ds)
      ∧ ds.length = 2
      ∧ ds.get? 0 = some (.vString "Ana")
      ∧ ds.get? 1 = some (.vString "a@x.com") := by
  obtain ⟨ds, hmap, hlen, hget⟩ := C4_thm entC4fields entC4vals dtoC4fields (by decide)
  obtain ⟨v0, hf0, hg0⟩ := hget 0 { name := "Name" } .tString (by decide) rfl
  obtain ⟨v1, hf1, hg1⟩ := hget 1 { name := "Email" } .tString (by decide) rfl
  have e0 : findFieldByName entC4fields entC4vals "Name" = some (.tString, .vString "Ana") := by
    decide
  have e1 : findFieldByName entC4fields entC4vals "Email"
      = some (.tString, .vString "a@x.com") := by decide
  rw [e0] at hf0
  rw [e1] at hf1
  injection hf0 with hp0
  injection hf1 with hp1
  injection hp0 with hta hva
  injection hp1 with htb hvb
  refine ⟨ds, hmap, by rw [hlen]; rfl, ?_, ?_⟩
  · rw [hg0, hva]
  · rw [hg1, hvb]

/-! ### C5: slice projection -/

theorem mapEntityToDTO_total (eT : GoType) (eV : GoVal) (dtoT : GoType) :
    ∃ d, mapEntityToDTO (some (eT, eV)) dtoT = .ok d := by
  have key : ∀ (a : GoFields) (b : GoVals) (c : GoFields),
      ∃ d, (match mapFieldsLoop "error mapping field " a b c (zeroFields c) with
            | Except.ok ds => Except.ok (GoVal.vStruct ds)
            | Except.error e => Except.error e) = Except.ok d := by
    intro a b c
    obtain ⟨r, hr⟩ := mapTotal.2.2.2.2.2.1 "error mapping field " a b c (zeroFields c)
    rw [hr]
    exact ⟨_, rfl⟩
  simp only [mapEntityToDTO]
  split
  · exact key _ _ _
  · exact ⟨_, rfl⟩

theorem projectSliceLoop_spec (eT dtoT : GoType) :
    ∀ es : List GoVal, ∃ ds : GoVals,
      projectSliceLoop eT dtoT es = .ok ds
      ∧ ds.length = es.length
      ∧ ∀ i e, es.get? i = some e →
          ∃ d, mapEntityToDTO (some (eT, e)) dtoT = .ok d ∧ ds.get? i = some d := by
  intro es
  induction es with
  | nil =>
    refine ⟨.nil, rfl, rfl, ?_⟩
    intro i e h
    simp at h
  | cons e rest ih =>
    obtain ⟨ds, hds, hlen, hget⟩ := ih
    obtain ⟨d, hd⟩ := mapEntityToDTO_total eT e dtoT
    refine ⟨.cons d ds, ?_, ?_, ?_⟩
    · simp only [projectSliceLoop]
      rw [hd, hds]
    · simp [GoVals.length, hlen, Nat.add_comm]
    · intro i e' hi
      match i with
      | 0 =>
        simp only [List.get?, Option.some.injEq] at hi
        subst hi
        exact ⟨d, hd, rfl⟩
      | Nat.succ j =>
        simp only [List.get?] at hi
        exact hget j e' hi

/-- Claim C5, confirmed.  The slice projection operations map a non-nil
entity slice elementwise, in order, to a DTO slice of the same length; an
empty input yields a fresh empty non-nil DTO slice; a nil input is an
error.  The claim's failure-propagation clause holds vacuously and is
proved in the strongest form: mapping a slice element can never fail,
because the only error the mapping engine ever creates is the nil-entity
check and slice elements are values, never nil — so "if mapping any element
fails ..." is true of every run.  (Were the branch reachable, the source's
wrap `"error converting entity: %w"` carries no element index; only the
unreachable inner `mapSliceToSlice` wrap does.)  `ProjectSlice` on a clean
repository state with a stored collection and configured projection agrees
with `ProjectEntitySlice` on that collection. -/
theorem C5_thm (eT dtoT : GoType) (es : List GoVal) (r : Repo) :
    (∃ ds : GoVals,
        ProjectEntitySlice eT (some es) dtoT = .ok (.vSlice ds)
      ∧ ds.length = es.length
      ∧ ∀ i e, es.get? i = some e →
          ∃ d, mapEntityToDTO (some (eT, e)) dtoT = .ok d ∧ ds.get? i = some d)
  ∧ ProjectEntitySlice eT (some []) dtoT = .ok (.vSlice .nil)
  ∧ ProjectEntitySlice eT none dtoT = .error "entity slice cannot be nil"
  ∧ (∀ e err, mapEntityToDTO (some (eT, e)) dtoT = .error err → False)
  ∧ (r.lastError = none → r.currentSlice = some es → r.projection = some dtoT →
      ProjectSlice r = ProjectEntitySlice r.entityT (some es) dtoT) := by
  refine ⟨?_, rfl, rfl, ?_, ?_⟩
  · match es with
    | [] =>
      refine ⟨.nil, rfl, rfl, ?_⟩
      intro i e h
      simp at h
    | e :: rest =>
      obtain ⟨ds, hds, hlen, hget⟩ := projectSliceLoop_spec eT dtoT (e :: rest)
      refine ⟨ds, ?_, hlen, hget⟩
      simp only [ProjectEntitySlice]
      rw [hds]
  · intro e err herr
    obtain ⟨d, hd⟩ := mapEntityToDTO_total eT e dtoT
    rw [hd] at herr
    cases herr
  · intro hle hcs hpr
    unfold ProjectSlice ProjectEntitySlice
    rw [hle, hcs, hpr]
    match es with
    | [] => rfl
    | e :: rest => rfl

/-- Witness for C5: on a clean state with a stored collection and a
configured projection, `ProjectSlice` equals `ProjectEntitySlice` on the
stored collection. -/
theorem C5_wit :
    ProjectSlice repoC5
      = ProjectEntitySlice (.tStruct .nil) (some [.vStruct .nil]) (.tStruct .nil) :=
  (C5_thm (.tStruct .nil) (.tStruct .nil) [.vStruct .nil] repoC5).2.2.2.2 rfl rfl rfl

/-- Counterexample to claim C10.  The claim says that whenever `mapEntityToDTO`
maps a matched entity slice field into a DTO slice field and the entity
slice is empty, the DTO field is left at its zero value (a nil slice).
When the entity slice type is directly convertible to the DTO slice type
(identical element types), the convert-and-assign path of `mapFieldValue`
runs instead of `mapSliceToSlice`, and an empty non-nil entity slice is
copied as an empty non-nil slice, not left nil. -/
theorem C10_cex :
    convertibleTo (.tSlice .tInt) (.tSlice .tInt) = true
  ∧ mapEntityToDTO (some (.tStruct entC10fields, .vStruct entC10vals)) (.tStruct dtoC10fields)
      = .ok (.vStruct (.cons (.vSlice .nil) .nil))
  ∧ (GoVal.vSlice .nil) ≠ .vSliceNil
  ∧ zeroVal (.tSlice .tInt) = .vSliceNil := by
  refine ⟨by decide, ?_, by decide, by decide⟩
  simp [mapEntityToDTO, entC10fields, entC10vals, dtoC10fields, mapFieldsLoop,
    mapOneField, lookupSource, findFieldByName, mapFieldValue, convertibleTo, identNoTags,
    convert, zeroFields, zeroVal, derefPtrType, GoVals.headOr, GoVals.tailOr]

/-- Claim C10 as amended.  Only when the entity slice field's type is not
directly convertible to the DTO slice field's type does the elementwise
path (`mapSliceToSlice`) run, and then an empty or nil entity slice leaves
the DTO field at its current (zero) value — a nil slice, since the zero
value of a slice type is nil; when the types are directly convertible the
source slice is copied as-is, nil-ness and emptiness included.  In
contrast, the top-level slice projection API returns a fresh empty non-nil
slice for an empty input slice. -/
theorem C10_thm (sE dE : GoType) (srcV dstV : GoVal) (t eT dtoT : GoType) (v : GoVal)
    (hconv : convertibleTo (.tSlice sE) (.tSlice dE) = false)
    (hempty : srcElemsOf srcV = .nil) :
    mapFieldValue (.tSlice sE) srcV (.tSlice dE) dstV = .ok dstV
  ∧ zeroVal (.tSlice dE) = .vSliceNil
  ∧ mapFieldValue (.tSlice t) v (.tSlice t) dstV = .ok v
  ∧ ProjectEntitySlice eT (some []) dtoT = .ok (.vSlice .nil) := by
  refine ⟨?_, rfl, ?_, rfl⟩
  · rw [mapFieldValue.eq_def]
    simp only [hconv, Bool.false_eq_true, if_false]
    rw [mapSliceToSlice.eq_def]
    rw [hempty]
  · rw [mapFieldValue.eq_def]
    simp [convertibleTo_refl, convert_self]

/-- Witness for the amended C10: `[]struct{A int}` to `[]struct{B int}` is
not directly convertible, so mapping a nil source slice into a zero (nil)
destination leaves it nil; and the convertible copy of an empty non-nil
`[]int` keeps it non-nil. -/
theorem C10_wit :
    mapFieldValue (.tSlice (.tStruct (.cons { name := "A" } .tInt .nil))) .vSliceNil
        (.tSlice (.tStruct (.cons { name := "B" } .tInt .nil)))
        (zeroVal (.tSlice (.tStruct (.cons { name := "B" } .tInt .nil)))) = .ok .vSliceNil
  ∧ mapFieldValue (.tSlice .tInt) (.vSlice .nil) (.tSlice .tInt) .vSliceNil
      = .ok (.vSlice .nil) := by
  have h := C10_thm (.tStruct (.cons { name := "A" } .tInt .nil))
    (.tStruct (.cons { name := "B" } .tInt .nil)) .vSliceNil
    (zeroVal (.tSlice (.tStruct (.cons { name := "B" } .tInt .nil))))
    .tInt (.tStruct .nil) (.tStruct .nil) (.vSlice .nil) (by decide) (by decide)
  refine ⟨?_, ?_⟩
  · have h1 := h.1
    simpa using h1
  · have h3 := h.2.2.1
    exact h3

theorem findPrimaryKey_eq_head :
    (∀ t v, findPrimaryKey t v = (pkCandidates t v).head?)
  ∧ (∀ fs vs, findPKFields fs vs = (pkCandidatesFields fs vs).head?) := by
  apply findPrimaryKey.mutual_induct
  · intro fs vs ih
    rw [findPrimaryKey, pkCandidates]
    exact ih
  · intro t v h1
    rw [findPrimaryKey.eq_def, pkCandidates.eq_def]
    match t, v with
    | .tStruct fs, .vStruct vs => exact (h1 fs vs rfl rfl).elim
    | .tString, _ => rfl
    | .tBool, _ => rfl
    | .tInt, _ => rfl
    | .tInt64, _ => rfl
    | .tFloat64, _ => rfl
    | .tPtr _, _ => rfl
    | .tSlice _, _ => rfl
    | .tStruct _, .vString _ => rfl
    | .tStruct _, .vBool _ => rfl
    | .tStruct _, .vInt _ => rfl
    | .tStruct _, .vFloat _ => rfl
    | .tStruct _, .vPtrNil => rfl
    | .tStruct _, .vPtr _ => rfl
    | .tStruct _, .vSliceNil => rfl
    | .tStruct _, .vSlice _ => rfl
  · intro m t rest v vs hpk
    rw [findPKFields, pkCandidatesFields]
    simp [hpk]
  · intro m t rest v vs hpk r hsome ih
    by_cases han : (m.anonymous && isStructVal v) = true
    · rw [if_pos han] at hsome
      have hh : (pkCandidates t v).head? = some r := ih.symm.trans hsome
      rw [findPKFields, pkCandidatesFields]
      simp only [hpk, Bool.false_eq_true, if_false, List.nil_append, han, if_true]
      rw [hsome]
      cases hc : pkCandidates t v with
      | nil => rw [hc] at hh; cases hh
      | cons p ps =>
        rw [hc] at hh
        simp_all
    · rw [if_neg han] at hsome
      cases hsome
  · intro m t rest v vs hpk hnone ih1 ih2
    rw [findPKFields, pkCandidatesFields]
    simp only [hpk, Bool.false_eq_true, if_false, List.nil_append]
    by_cases han : (m.anonymous && isStructVal v) = true
    · rw [if_pos han] at hnone
      have hh : (pkCandidates t v).head? = none := ih1.symm.trans hnone
      simp only [han, if_true]
      rw [hnone]
      cases hc : pkCandidates t v with
      | cons p ps => rw [hc] at hh; cases hh
      | nil =>
        simpa using ih2
    · simp only [han, Bool.false_eq_true, if_false, List.nil_append]
      exact ih2
  · intro fs vs h1
    rw [findPKFields.eq_def, pkCandidatesFields.eq_def]
    match fs, vs with
    | .cons m t rest, .cons v vs2 => exact (h1 m t rest v vs2 rfl rfl).elim
    | .nil, _ => rfl
    | .cons _ _ _, .nil => rfl

/-- Claim C7, confirmed.  With the explicit identity-accessor capability,
resolution returns the fixed name `"id"` and the accessor's value.
Otherwise the entity value (after a pointer dereference) is searched: the
result is the head of the depth-first, sibling-ordered candidate list
`pkCandidates` — i.e. the first field, in declaration order, whose name
case-insensitively equals `"id"` or whose persistence tag marks a primary
key, with anonymous embedded struct fields searched recursively before
later siblings — and an empty candidate list is a not-found error.  The
specification's embedded scenario (`Base{ID}` inside `User`) resolves to
`("ID", 42)`. -/
theorem C7_thm :
    (∀ x t v, GetPrimaryKey (some x) (t, v) = .ok ("id", x))
  ∧ (∀ t v,
      GetPrimaryKey none (t, v) =
        (match (pkCandidates (derefPtrVal (t, v)).1 (derefPtrVal (t, v)).2).head? with
         | some p => .ok p
         | none => .error "primary key not found"))
  ∧ GetPrimaryKey none (userC7T, userC7V) = .ok ("ID", .vInt 42) := by
  refine ⟨fun x t v => rfl, ?_, by rfl⟩
  intro t v
  simp only [GetPrimaryKey]
  rcases hd : derefPtrVal (t, v) with ⟨t', v'⟩
  rw [findPrimaryKey_eq_head.1 t' v']
  cases (pkCandidates t' v').head? with
  | some p => rfl
  | none => rfl

end GormRepo
